import Mathlib

/-!
# GoVid — verification of the filter-graph builder, job lifecycle and stores

A shallow embedding of the GoVid video-processing service (Go), covering:

* the FFmpeg argument/filter-graph builders (`internal/ffmpeg/video.go`,
  the string-building variants of the audio and overlay builders),
* the API-key / bearer-token validator (`pkg/auth/auth.go`),
* the job entity, its mutation operations and the store/persistence layer
  (`internal/models`, `internal/models/persistence.go`),
* the job-processing traces of the HTTP and MCP handlers
  (`internal/api/handlers.go`, `internal/mcp/tools.go`),
* the retention sweeper job cleanup (`pkg/cleanup/scheduler.go`),
* the semaphore-bounded executor gate (`internal/ffmpeg/executor.go`).

Modelling conventions:

* Go strings are modelled as `List Char` (`Str`); Go string literals enter
  through `str`.  Go string concatenation is list append, `strings.Join`
  is `List.intercalate`.
* Go `float64` time/volume values are modelled as `ℚ`; the `fmt.Sprintf`
  `%.2f` / `%.6f` verbs are modelled by exact decimal rounding
  (`fmtF2` / `fmtF6`), and `%d` by `natStr`.  The claims below depend only
  on which characters these renderings can produce, never on a particular
  rounded digit string.
* `time.Time` fields (`CreatedAt`/`UpdatedAt`) are elided from the job
  model: they are wall-clock values set from `time.Now()` and no claim
  refers to them.  File modification times are modelled as `Int`.
* The filesystem is modelled where needed: as a list of existing paths for
  `ValidateFile`, as an association list path ↦ record for job
  persistence, and as a listing function directory ↦ entries for the
  retention sweeper.
-/

namespace GoVid

/-- Go strings, modelled at the character level. -/
abbrev Str := List Char

/-- Embed a Lean string literal as a Go string value. -/
def str (s : String) : Str := s.data

/-! ## Decimal rendering (`fmt.Sprintf` verbs `%d`, `%.2f`, `%.6f`) -/

/-- Decimal digits of a natural number (fuel-structured so that it reduces
in the kernel); models the `%d` verb. -/
def natStrAux : Nat → Nat → Str
  | 0, _ => []
  | fuel + 1, n =>
    if n < 10 then [Nat.digitChar n]
    else natStrAux fuel (n / 10) ++ [Nat.digitChar (n % 10)]

/-- Decimal rendering of a natural number (`%d`). -/
def natStr (n : Nat) : Str := natStrAux (n + 1) n

/-- Fixed-point rendering of `q` with `k` decimal digits: the sign, the
integer part and `k` digits of the fractional part of `q` rounded to the
nearest `10 ^ (-k)`.  The rounded scaled value `round (q * 10 ^ k)` is
computed as `⌊(2 * num * 10 ^ k + den) / (2 * den)⌋` so that it reduces in
the kernel. -/
def fmtFk (k : Nat) (q : ℚ) : Str :=
  let n : Int := Int.fdiv (2 * q.num * (10 ^ k) + q.den) (2 * q.den)
  let a : Nat := n.natAbs
  (if n < 0 then ['-'] else []) ++
    natStr (a / 10 ^ k) ++ ['.'] ++
    (natStr (a % 10 ^ k + 10 ^ k)).drop 1

/-- Model of the `%.2f` verb. -/
def fmtF2 (q : ℚ) : Str := fmtFk 2 q

/-- Model of the `%.6f` verb (used only by the zoom branch). -/
def fmtF6 (q : ℚ) : Str := fmtFk 6 q

/-- Decimal rendering of an integer (`%d` on Go ints). -/
def intStr (n : Int) : Str :=
  (if n < 0 then ['-'] else []) ++ natStr n.natAbs

/-! ## Data model (`internal/models`) -/

/-- Model of `models.VideoSegment`: a video segment with a timeframe
(seconds; `EndTime ≤ 0` means "to end of input"). -/
structure VideoSegment where
  FilePath  : Str
  StartTime : ℚ
  EndTime   : ℚ
deriving DecidableEq, Repr

/-- Model of `models.OverlayPosition`. -/
inductive OverlayPosition
  | topLeft | topRight | bottomLeft | bottomRight | center | custom
deriving DecidableEq, Repr

/-- Model of `models.AnimationType`. -/
inductive AnimationType
  | fade | slide | zoom | none
deriving DecidableEq, Repr

/-- Model of `models.SlideDirection`. -/
inductive SlideDirection
  | left | right | top | bottom
deriving DecidableEq, Repr

/-- Model of `models.ImageOverlay`. -/
structure ImageOverlay where
  FilePath       : Str
  Position       : OverlayPosition
  X              : Option Int
  Y              : Option Int
  StartTime      : ℚ
  EndTime        : ℚ
  Animation      : AnimationType
  FadeDuration   : Option ℚ
  SlideDirection : Option SlideDirection
  SlideDuration  : Option ℚ
  ZoomFrom       : Option ℚ
  ZoomTo         : Option ℚ
deriving DecidableEq, Repr

/-- Model of `models.AudioConfig`. -/
structure AudioConfig where
  FilePath  : Str
  Volume    : ℚ
  StartTime : Option ℚ
  EndTime   : Option ℚ
  FadeIn    : Option ℚ
  FadeOut   : Option ℚ
deriving DecidableEq, Repr

/-- Model of `models.CompleteProcessRequest`. -/
structure CompleteProcessRequest where
  Segments : List VideoSegment
  Overlays : List ImageOverlay
  Audio    : Option AudioConfig
deriving DecidableEq, Repr

/-! ## FFmpeg merge builder (`internal/ffmpeg/video.go`, `MergeVideos`) -/

/-- The video trim filter built for segment `i`
(`video.go` lines 38–45): `trim=start=S[:end=E],setpts=PTS-STARTPTS`. -/
def videoTrimFilter (i : Nat) (seg : VideoSegment) : Str :=
  if 0 < seg.EndTime then
    str "[" ++ natStr i ++ str ":v]trim=start=" ++ fmtF2 seg.StartTime ++
      str ":end=" ++ fmtF2 seg.EndTime ++ str ",setpts=PTS-STARTPTS[v" ++
      natStr i ++ str "]"
  else
    str "[" ++ natStr i ++ str ":v]trim=start=" ++ fmtF2 seg.StartTime ++
      str ",setpts=PTS-STARTPTS[v" ++ natStr i ++ str "]"

/-- The audio trim filter built for segment `i`
(`video.go` lines 49–56): `atrim=start=S[:end=E],asetpts=PTS-STARTPTS`. -/
def audioTrimFilter (i : Nat) (seg : VideoSegment) : Str :=
  if 0 < seg.EndTime then
    str "[" ++ natStr i ++ str ":a]atrim=start=" ++ fmtF2 seg.StartTime ++
      str ":end=" ++ fmtF2 seg.EndTime ++ str ",asetpts=PTS-STARTPTS[a" ++
      natStr i ++ str "]"
  else
    str "[" ++ natStr i ++ str ":a]atrim=start=" ++ fmtF2 seg.StartTime ++
      str ",asetpts=PTS-STARTPTS[a" ++ natStr i ++ str "]"

/-- The concat input pair `[vi][ai]` for segment `i` (`video.go` line 60). -/
def concatPair (i : Nat) : Str :=
  str "[v" ++ natStr i ++ str "][a" ++ natStr i ++ str "]"

/-- Model of `concatInputs` accumulated by the loop (`video.go` lines 36–61). -/
def mergeConcatInputs (segments : List VideoSegment) : List Str :=
  segments.enum.map fun p => concatPair p.1

/-- The concat filter (`video.go` lines 64–65):
`[v0][a0]…concat=n=N:v=1:a=1[outv][outa]`. -/
def mergeConcatFilter (segments : List VideoSegment) : Str :=
  (mergeConcatInputs segments).flatten ++
    (str "concat=n=" ++ natStr segments.length ++ str ":v=1:a=1[outv][outa]")

/-- Model of `filterParts` accumulated by `MergeVideos` (`video.go` lines 33–66):
per segment a video then an audio trim filter, and finally the concat
filter. -/
def mergeFilterParts (segments : List VideoSegment) : List Str :=
  (segments.enum.flatMap fun p =>
    [videoTrimFilter p.1 p.2, audioTrimFilter p.1 p.2]) ++
    [mergeConcatFilter segments]

/-- Model of `ffmpeg.BuildFilterComplex` (`executor.go`): join with `;`. -/
def BuildFilterComplex (filters : List Str) : Str :=
  List.intercalate (str ";") filters

/-- The full argument list assembled by `MergeVideos`
(`video.go` lines 24–83). -/
def mergeVideosArgs (segments : List VideoSegment) (outputPath : Str) :
    List Str :=
  [str "-y"] ++
    (segments.flatMap fun seg => [str "-i", seg.FilePath]) ++
    [str "-filter_complex", BuildFilterComplex (mergeFilterParts segments)] ++
    [str "-map", str "[outv]", str "-map", str "[outa]"] ++
    [str "-c:v", str "libx264", str "-preset", str "medium",
     str "-crf", str "23", str "-c:a", str "aac", str "-b:a", str "192k",
     outputPath]

/-- Model of `ffmpeg.ValidateFile` (`executor.go` lines 75–85) against a filesystem
modelled as the list of existing paths: empty path or missing file is an
error. -/
def ValidateFile (fs : List Str) (path : Str) : Option Str :=
  if path = [] then some (str "file path is empty")
  else if path ∈ fs then none
  else some (str "file does not exist: " ++ path)

/-- The per-segment validation loop of `MergeVideos`
(`video.go` lines 18–22): the first failing segment aborts with
`segment i: <err>`. -/
def mergeValidateSegments (fs : List Str) (segments : List VideoSegment) :
    Option Str :=
  segments.enum.findSome? fun p =>
    (ValidateFile fs p.2.FilePath).map fun e =>
      str "segment " ++ natStr p.1 ++ str ": " ++ e

/-- Model of `MergeVideos` up to the `Execute` call (`video.go` lines 12–85):
rejects fewer than 2 segments, validates every input file, then builds
the argument list handed to the executor. -/
def MergeVideos (fs : List Str) (segments : List VideoSegment)
    (outputPath : Str) : Except Str (List Str) :=
  if segments.length < 2 then
    .error (str "at least 2 video segments required for merging")
  else
    match mergeValidateSegments fs segments with
    | some e => .error e
    | none => .ok (mergeVideosArgs segments outputPath)

/-! ## FFmpeg overlay builder (string-building variant of `overlay.go`:
`buildOverlayFilter`, `buildOverlayExpression`, `calculatePosition`,
`calculateSlidePosition`) -/

/-- Model of `calculatePosition`: preset inset positions, or the explicit custom
`(x, y)` when both are given. -/
def calculatePosition (overlay : ImageOverlay) : Str × Str :=
  if overlay.Position = .custom ∧ overlay.X ≠ none ∧ overlay.Y ≠ none then
    ((overlay.X.getD 0 |> intStr), (overlay.Y.getD 0 |> intStr))
  else
    match overlay.Position with
    | .topLeft => (str "10", str "10")
    | .topRight => (str "(main_w-overlay_w-10)", str "10")
    | .bottomLeft => (str "10", str "(main_h-overlay_h-10)")
    | .bottomRight => (str "(main_w-overlay_w-10)", str "(main_h-overlay_h-10)")
    | .center => (str "(main_w-overlay_w)/2", str "(main_h-overlay_h)/2")
    | _ => (str "10", str "10")

/-- Model of `calculateSlidePosition`: the overlay position interpolated from an
off-screen edge to the base position over the slide window. -/
def calculateSlidePosition (overlay : ImageOverlay) (baseX baseY : Str)
    (duration : ℚ) (dir : SlideDirection) : Str × Str :=
  let t := str "(t-" ++ fmtF2 overlay.StartTime ++ str ")"
  let progress := str "min(" ++ t ++ str "/" ++ fmtF2 duration ++ str ",1)"
  match dir with
  | .left =>
    (str "if(lt(t," ++ fmtF2 overlay.StartTime ++ str "),-overlay_w,-overlay_w+(" ++
       progress ++ str ")*(overlay_w+" ++ baseX ++ str "))", baseY)
  | .right =>
    (str "if(lt(t," ++ fmtF2 overlay.StartTime ++ str "),main_w,main_w-(" ++
       progress ++ str ")*(main_w-" ++ baseX ++ str "))", baseY)
  | .top =>
    (baseX, str "if(lt(t," ++ fmtF2 overlay.StartTime ++ str "),-overlay_h,-overlay_h+(" ++
       progress ++ str ")*(overlay_h+" ++ baseY ++ str "))")
  | .bottom =>
    (baseX, str "if(lt(t," ++ fmtF2 overlay.StartTime ++ str "),main_h,main_h-(" ++
       progress ++ str ")*(main_h-" ++ baseY ++ str "))")

/-- Model of `buildOverlayExpression`: position (slide-animated if requested) and
the enable-between(t,start,end) visibility gate. -/
def buildOverlayExpression (overlay : ImageOverlay) : Str :=
  let p := calculatePosition overlay
  let p :=
    match overlay.Animation, overlay.SlideDirection with
    | .slide, some dir =>
      calculateSlidePosition overlay p.1 p.2 (overlay.SlideDuration.getD 1) dir
    | _, _ => p
  let enableExpr :=
    str "enable=\x27between(t," ++ fmtF2 overlay.StartTime ++ str "," ++
      fmtF2 overlay.EndTime ++ str ")\x27"
  str "overlay=" ++ p.1 ++ str ":" ++ p.2 ++ str ":" ++ enableExpr

/-- Model of `buildOverlayFilter`: the animation filter chain on the image input
`[1:v]`, then the overlay compositing step.  In the fade case the default
duration is `1.0` when `FadeDuration` is nil; the zoom rate is
`(zoomTo - zoomFrom) / (end - start)` (`ℚ` division, so `0` when the
window is empty where Go would produce `±Inf`; no claim touches zoom). -/
def buildOverlayFilter (overlay : ImageOverlay) : Str :=
  let imageFilter := str "[1:v]"
  let imageFilter :=
    match overlay.Animation with
    | .fade =>
      let duration := overlay.FadeDuration.getD 1
      let fadeIn := str "fade=t=in:st=" ++ fmtF2 overlay.StartTime ++
        str ":d=" ++ fmtF2 duration
      let fadeOut := str "fade=t=out:st=" ++ fmtF2 (overlay.EndTime - duration) ++
        str ":d=" ++ fmtF2 duration
      imageFilter ++ (fadeIn ++ str "," ++ fadeOut)
    | .zoom =>
      let zoomFrom := overlay.ZoomFrom.getD 1
      let zoomTo := overlay.ZoomTo.getD (3 / 2)
      let duration := overlay.EndTime - overlay.StartTime
      let zoomRate := (zoomTo - zoomFrom) / duration
      imageFilter ++ (str "zoompan=z=\x27if(lte(zoom," ++ fmtF2 zoomTo ++
        str "),zoom+" ++ fmtF6 zoomRate ++ str "," ++ fmtF2 zoomTo ++
        str ")\x27:d=1:s=1280x720")
    | .slide => imageFilter
    | .none => imageFilter
  List.intercalate (str ";")
    [imageFilter ++ str "[overlay]",
     str "[0:v][overlay]" ++ buildOverlayExpression overlay]

/-! ## FFmpeg audio builder (string-building variant of `audio.go`:
`buildAudioFilter`) -/

/-- Model of `buildAudioFilter`: trim + timestamp reset, fade-in, fade-out, volume
on the music input `[1:a]`, then the `amix` step against the original video
audio `[0:a]`. -/
def buildAudioFilter (audio : AudioConfig) : Str :=
  let audioStream := str "[1:a]"
  let audioStream :=
    match audio.StartTime, audio.EndTime with
    | some s, some e =>
      audioStream ++ (str "atrim=start=" ++ fmtF2 s ++ str ":end=" ++ fmtF2 e) ++ str ","
    | some s, none =>
      audioStream ++ (str "atrim=start=" ++ fmtF2 s) ++ str ","
    | none, some e =>
      audioStream ++ (str "atrim=end=" ++ fmtF2 e) ++ str ","
    | none, none => audioStream
  let audioStream :=
    if audio.StartTime ≠ none ∨ audio.EndTime ≠ none then
      audioStream ++ str "asetpts=PTS-STARTPTS,"
    else audioStream
  let audioStream :=
    match audio.FadeIn with
    | some fi =>
      if 0 < fi then
        audioStream ++ (str "afade=t=in:st=0:d=" ++ fmtF2 fi) ++ str ","
      else audioStream
    | none => audioStream
  let audioStream :=
    match audio.FadeOut with
    | some f =>
      if 0 < f then
        let fadeOutStart : ℚ :=
          match audio.EndTime, audio.StartTime with
          | some e, some s => e - s - f
          | some e, none => e - f
          | _, _ => 0
        if 0 < fadeOutStart then
          audioStream ++ (str "afade=t=out:st=" ++ fmtF2 fadeOutStart ++
            str ":d=" ++ fmtF2 f) ++ str ","
        else
          audioStream ++ (str "afade=t=out:d=" ++ fmtF2 f) ++ str ","
      else audioStream
    | none => audioStream
  let audioStream := audioStream ++ (str "volume=" ++ fmtF2 audio.Volume)
  let audioStream := audioStream ++ str "[music]"
  List.intercalate (str ";")
    [audioStream,
     str "[0:a][music]amix=inputs=2:duration=first:dropout_transition=2[aout]"]

/-- An `afade` filter without an explicit `st` parameter starts fading at
stream time `0`, i.e. at the track start (the FFmpeg default). -/
def afadeDefaultStart : ℚ := 0

/-- The time interval covered by a fade that starts at `st` and runs for
`d` seconds: `[st, st + d)`. -/
def fadeWindow (st d : ℚ) : Set ℚ := Set.Ico st (st + d)

/-! ## Auth (`pkg/auth/auth.go`, `Validator.ValidateToken`) -/

/-- Model of `Validator.ValidateToken`: rejects an empty `Authorization` header,
strips a `Bearer ` prefix when the header is longer than 7 bytes and
starts with it, and compares the remainder with the configured API key.
`none` means success. -/
def ValidateToken (apiKey authHeader : Str) : Option Str :=
  if authHeader = [] then some (str "missing Authorization header")
  else
    let token :=
      if 7 < authHeader.length ∧ authHeader.take 7 = str "Bearer " then
        authHeader.drop 7
      else authHeader
    if token ≠ apiKey then some (str "invalid or missing API key")
    else Option.none

/-! ## Job entity (`internal/models`, `Job` and its mutators)

`CreatedAt`/`UpdatedAt` are elided (wall-clock, referenced by no claim);
every other `Job` field is carried. -/

/-- Model of `models.JobStatus`. -/
inductive JobStatus
  | pending | processing | completed | failed
deriving DecidableEq, Repr

/-- The observable state of a `models.Job` (the fields `GetStatus`
snapshots plus the webhook URL). -/
structure JobState where
  id         : Str
  status     : JobStatus
  progress   : Nat
  outputPath : Str
  s3url      : Str
  webhookURL : Str
  error      : Str
deriving DecidableEq, Repr

/-- Model of `models.NewJob`: Pending with zero progress. -/
def NewJob (id : Str) : JobState :=
  { id := id, status := .pending, progress := 0, outputPath := [],
    s3url := [], webhookURL := [], error := [] }

/-- The mutators of `models.Job` (`UpdateStatus`, `UpdateProgress`,
`SetOutput`, `SetS3URL`, `SetError`). -/
inductive JobMut
  | updStatus (s : JobStatus)
  | updProgress (p : Nat)
  | setOutput (path : Str)
  | setS3URL (url : Str)
  | setError (e : Str)
deriving DecidableEq, Repr

/-- Apply one mutator; `SetError` also forces the status to Failed
(`models` `Job.SetError`). -/
def applyMut : JobMut → JobState → JobState
  | .updStatus s, j => { j with status := s }
  | .updProgress p, j => { j with progress := p }
  | .setOutput path, j => { j with outputPath := path }
  | .setS3URL url, j => { j with s3url := url }
  | .setError e, j => { j with error := e, status := .failed }

/-- One event of a processing goroutine: a job mutation, or a
`jobStore.Update` persisting the current snapshot. -/
inductive JobEv
  | mut (m : JobMut)
  | save
deriving DecidableEq, Repr

/-- Run an event list over a job state. -/
def stepEv (j : JobState) : JobEv → JobState
  | .mut m => applyMut m j
  | .save => j

/-- Every state observable through `Job.GetStatus` while the events run:
the initial state and the state after each event. -/
def observedStates (evs : List JobEv) (j0 : JobState) : List JobState :=
  evs.scanl stepEv j0

/-- The snapshots written to the persisted job record: the states at each
`save` event. -/
def persistedStates : List JobEv → JobState → List JobState
  | [], _ => []
  | .mut m :: t, j => persistedStates t (applyMut m j)
  | .save :: t, j => j :: persistedStates t j

/-! ## Processing traces (`internal/api/handlers.go`,
`internal/mcp/tools.go`)

Each `processFn`/collaborator outcome is a parameter: `Option Str` is the
error returned by the stage (`none` = success). -/

/-- The event trace of the HTTP `processJobCommon`
(`handlers.go` lines 493–519). -/
def apiProcessEvents (outputPath : Str) (result : Option Str) : List JobEv :=
  [.mut (.updStatus .processing), .mut (.updProgress 10), .save,
   .mut (.updProgress 30), .save] ++
  match result with
  | some e => [.mut (.setError e), .save]
  | none =>
    [.mut (.updProgress 100), .mut (.setOutput outputPath),
     .mut (.updStatus .completed), .save]

/-- The event trace of the MCP `processJobCommon`
(`tools.go` lines 305–327); identical checkpoints, no store updates. -/
def mcpProcessEvents (outputPath : Str) (result : Option Str) : List JobEv :=
  [.mut (.updStatus .processing), .mut (.updProgress 10),
   .mut (.updProgress 30)] ++
  match result with
  | some e => [.mut (.setError e)]
  | none =>
    [.mut (.updProgress 100), .mut (.setOutput outputPath),
     .mut (.updStatus .completed)]

/-- The event trace of `processCombineJobCommon`
(`handlers.go` lines 844–904): merge, `SetOutput` at progress 80, S3
upload, local-file deletion (clearing the output path on success), then
Completed. -/
def combineCommonEvents (outputPath : Str) (mergeResult : Option Str)
    (s3Result : Except Str Str) (removeOk : Bool) : List JobEv :=
  [.mut (.updProgress 60), .save] ++
  match mergeResult with
  | some e => [.mut (.setError (str "Failed to merge videos: " ++ e)), .save]
  | none =>
    [.mut (.updProgress 80), .mut (.setOutput outputPath), .save] ++
    match s3Result with
    | .error e => [.mut (.setError (str "Failed to upload to S3: " ++ e)), .save]
    | .ok url =>
      [.mut (.setS3URL url), .mut (.updProgress 90), .save] ++
      (if removeOk then [.mut (.setOutput [])] else []) ++
      [.mut (.updProgress 100), .mut (.updStatus .completed), .save]

/-- The event trace of `processCombineJobFromURLs`
(`handlers.go` lines 791–822). -/
def combineFromURLsEvents (outputPath : Str) (downloadResult : Option Str)
    (mergeResult : Option Str) (s3Result : Except Str Str)
    (removeOk : Bool) : List JobEv :=
  [.mut (.updStatus .processing), .mut (.updProgress 10), .save,
   .mut (.updProgress 20), .save] ++
  match downloadResult with
  | some e => [.mut (.setError (str "Failed to download videos: " ++ e)), .save]
  | none =>
    [.mut (.updProgress 40), .save] ++
    combineCommonEvents outputPath mergeResult s3Result removeOk

/-- The event trace of `processCombineJobFromFiles`
(`handlers.go` lines 825–841). -/
def combineFromFilesEvents (outputPath : Str) (mergeResult : Option Str)
    (s3Result : Except Str Str) (removeOk : Bool) : List JobEv :=
  [.mut (.updStatus .processing), .mut (.updProgress 10), .save,
   .mut (.updProgress 40), .save] ++
  combineCommonEvents outputPath mergeResult s3Result removeOk

/-! ## Submission handlers (`Handler.MergeVideos`, `handleMergeVideos`,
`ProcessComplete`) -/

/-- The outcome of the background merge goroutine `processFn`
(`executor.MergeVideos` followed by `Execute`): a validation error, an
execution failure (`execOk = false`), or success. -/
def mergeRunResult (fs : List Str) (segments : List VideoSegment)
    (outputPath : Str) (execOk : Bool) : Option Str :=
  match MergeVideos fs segments outputPath with
  | .error e => some e
  | .ok _ => if execOk then none else some (str "ffmpeg execution failed")

/-- The final state of a job driven through the HTTP `processJobCommon`. -/
def finalJobState (evs : List JobEv) (j0 : JobState) : JobState :=
  (observedStates evs j0).getLastD j0

/-- Model of `Handler.MergeVideos` (JSON mode, `handlers.go` lines 148–160) plus
its background goroutine, against a store modelled as the list of its
jobs: fewer than 2 segments is rejected synchronously (`false`, store
unchanged); otherwise a job is added and processed to its final state. -/
def handlerMergeVideos (segments : List VideoSegment)
    (store : List JobState) (fs : List Str) (execOk : Bool) (id : Str)
    (outputPath : Str) : Bool × List JobState :=
  if segments.length < 2 then (false, store)
  else
    (true, store ++
      [finalJobState
        (apiProcessEvents outputPath (mergeRunResult fs segments outputPath execOk))
        (NewJob id)])

/-- Model of the MCP `handleMergeVideos` (`tools.go` lines 193–221) plus its goroutine:
the same synchronous segment-count validation, then the MCP
`processJobCommon` trace. -/
def mcpHandleMergeVideos (segments : List VideoSegment)
    (store : List JobState) (fs : List Str) (execOk : Bool) (id : Str)
    (outputPath : Str) : Bool × List JobState :=
  if segments.length < 2 then (false, store)
  else
    (true, store ++
      [finalJobState
        (mcpProcessEvents outputPath (mergeRunResult fs segments outputPath execOk))
        (NewJob id)])

/-- Model of `Handler.ProcessComplete` (`handlers.go` lines 365–386): a Complete
request with zero segments is rejected synchronously; otherwise a job is
added and driven by `processJobCommon` with the staged
`CompleteProcess` outcome (taken as a parameter). -/
def handlerProcessComplete (req : CompleteProcessRequest)
    (store : List JobState) (processResult : Option Str) (id : Str)
    (outputPath : Str) : Bool × List JobState :=
  if req.Segments.length < 1 then (false, store)
  else
    (true, store ++
      [finalJobState (apiProcessEvents outputPath processResult) (NewJob id)])

/-! ## Job persistence (`internal/models/persistence.go`) -/

/-- Model of `jobData`: the serializable representation of a job (timestamps
elided as above; JSON encode/decode of this flat record is modelled as
the identity). -/
structure JobData where
  id         : Str
  status     : JobStatus
  progress   : Nat
  outputPath : Str
  error      : Str
deriving DecidableEq, Repr

/-- The file name of a persisted job record: `<jobsDir>/<id>.json`
(`filepath.Join` on a cleaned directory path). -/
def jobFilePath (jobsDir id : Str) : Str := jobsDir ++ str "/" ++ id ++ str ".json"

/-- Model of `JobPersistence.SaveJob`: snapshot the job and (re)write its record
file; the disk is an association list path ↦ record, newest first. -/
def SaveJob (jobsDir : Str) (disk : List (Str × JobData)) (j : JobState) :
    List (Str × JobData) :=
  let data : JobData :=
    { id := j.id, status := j.status, progress := j.progress,
      outputPath := j.outputPath, error := j.error }
  (jobFilePath jobsDir j.id, data) :: disk

/-- Look up a path on the modelled disk. -/
def diskRead (disk : List (Str × JobData)) (path : Str) : Option JobData :=
  (disk.find? fun p => p.1 = path).map Prod.snd

/-- Model of `JobPersistence.LoadJob`: read `<jobID>.json` and reconstruct the job
from `NewJob(data.ID)` plus the stored fields. -/
def LoadJob (jobsDir : Str) (disk : List (Str × JobData)) (jobID : Str) :
    Option JobState :=
  (diskRead disk (jobFilePath jobsDir jobID)).map fun data =>
    { NewJob data.id with
        status := data.status, progress := data.progress,
        outputPath := data.outputPath, error := data.error }

/-! ## Retention sweeper (`pkg/cleanup/scheduler.go`, `cleanOldJobs`) -/

/-- A directory entry as returned by `os.ReadDir`, with its
modification time. -/
structure FileEntry where
  name    : Str
  isDir   : Bool
  modTime : Int
deriving DecidableEq, Repr

/-- Go `filepath.Dir` for cleaned slash-separated paths: everything
before the final path element (`"."` when there is no separator, `"/"`
at the root). -/
def filepathDir (p : Str) : Str :=
  let parts := p.splitOn '/'
  if parts.length ≤ 1 then str "."
  else
    let d := List.intercalate (str "/") parts.dropLast
    if d = [] then str "/" else d

/-- Does `filepath.Ext name = ".json"` (name ends in `.json`)? -/
def hasJsonExt (name : Str) : Bool := (str ".json").isSuffixOf name

/-- Model of `Scheduler.cleanOldJobs` (`scheduler.go` lines 135–177): list
`filepath.Dir(jobStore.GetJobsDir())`, and for every non-directory
`.json` entry modified before the cutoff delete the job (by the file
base name) from the store and its record file from the configured jobs
directory.  Returns the surviving store, the disk paths removed, and the
deletion count. -/
def cleanOldJobs (jobsDirConfigured : Str)
    (listing : Str → List FileEntry) (store : List JobState)
    (cutoff : Int) : List JobState × List Str × Nat :=
  let jobsDir := filepathDir jobsDirConfigured
  if jobsDir = [] then (store, [], 0)
  else
    let victims := (listing jobsDir).filter fun e =>
      !e.isDir && hasJsonExt e.name && decide (e.modTime < cutoff)
    let ids := victims.map fun e => e.name.take (e.name.length - 5)
    (store.filter (fun j => decide (j.id ∉ ids)),
     ids.map fun id => jobFilePath jobsDirConfigured id,
     ids.length)

/-! ## Execution gate (`internal/ffmpeg/executor.go`, `Executor.Execute`)

`Execute` acquires one slot from the weighted semaphore (blocking; a
context cancellation during the wait returns without the slot), runs the
external process under a timeout, and releases the slot via `defer` on
every return path.  Modelled as an interleaving of tasks each running
`Execute`. -/

/-- The phase of one task calling `Execute`: waiting on `sem.Acquire`,
running the external process (slot held), or returned (slot released, or
never acquired). -/
inductive TaskPhase
  | waiting | running | done
deriving DecidableEq, Repr

/-- The gate state: free slots of the semaphore and the phase of each
task. -/
structure GateState where
  avail : Nat
  tasks : List TaskPhase
deriving DecidableEq, Repr

/-- One interleaving step of the executor gate:
* `acquire` — `sem.Acquire` succeeds (a free slot existed);
* `cancelAcquire` — the context is canceled while waiting, `Execute`
  returns the acquire error without ever holding a slot;
* `finish` — `cmd.Run` returns (success, failure or deadline kill) and
  the deferred `sem.Release(1)` runs as `Execute` returns. -/
inductive GateStep : GateState → GateState → Prop
  | acquire (s : GateState) (i : Nat) (hi : s.tasks.get? i = some .waiting)
      (h : 0 < s.avail) :
      GateStep s ⟨s.avail - 1, s.tasks.set i .running⟩
  | cancelAcquire (s : GateState) (i : Nat)
      (hi : s.tasks.get? i = some .waiting) :
      GateStep s ⟨s.avail, s.tasks.set i .done⟩
  | finish (s : GateState) (i : Nat) (hi : s.tasks.get? i = some .running) :
      GateStep s ⟨s.avail + 1, s.tasks.set i .done⟩

/-- The executor as built by `NewExecutor` with capacity `maxConcurrent`
and `n` client tasks about to call `Execute`. -/
def gateInit (maxConcurrent n : Nat) : GateState :=
  ⟨maxConcurrent, List.replicate n .waiting⟩

/-- States reachable from the initial gate state. -/
def GateReachable (maxConcurrent n : Nat) (s : GateState) : Prop :=
  Relation.ReflTransGen GateStep (gateInit maxConcurrent n) s

/-- The number of external-engine processes currently running. -/
def runningCount (s : GateState) : Nat := s.tasks.count .running

/-! ## Character-set and infix helpers -/

/-- Every character of `s` is drawn from `allowed`. -/
abbrev charsOK (allowed s : Str) : Prop := ∀ c ∈ s, c ∈ allowed

theorem charsOK_append {A s t : Str} (hs : charsOK A s) (ht : charsOK A t) :
    charsOK A (s ++ t) := by
  intro c hc
  rcases List.mem_append.mp hc with h | h
  exacts [hs c h, ht c h]

theorem charsOK_mono {A B s : Str} (hAB : A ⊆ B) (h : charsOK A s) :
    charsOK B s := fun c hc => hAB (h c hc)

theorem charsOK_natStrAux (fuel n : Nat) :
    charsOK (str "0123456789") (natStrAux fuel n) := by
  have hd : ∀ m, m < 10 → Nat.digitChar m ∈ str "0123456789" := by decide
  induction fuel generalizing n with
  | zero => intro c hc; simp [natStrAux] at hc
  | succ fuel ih =>
    intro c hc
    rw [natStrAux] at hc
    by_cases h : n < 10
    · rw [if_pos h] at hc
      simp only [List.mem_singleton] at hc
      exact hc ▸ hd n h
    · rw [if_neg h] at hc
      rcases List.mem_append.mp hc with h' | h'
      · exact ih (n / 10) c h'
      · simp only [List.mem_singleton] at h'
        exact h' ▸ hd (n % 10) (Nat.mod_lt n (by norm_num))

theorem charsOK_natStr (n : Nat) : charsOK (str "0123456789") (natStr n) :=
  charsOK_natStrAux _ _

theorem charsOK_fmtFk (k : Nat) (q : ℚ) :
    charsOK (str "-.0123456789") (fmtFk k q) := by
  have hsub : str "0123456789" ⊆ str "-.0123456789" := by decide
  intro c hc
  rw [fmtFk] at hc
  simp only [List.mem_append] at hc
  rcases hc with ((h | h) | h) | h
  · revert h
    split <;> intro h
    · simp only [List.mem_singleton] at h
      exact h ▸ (by decide)
    · simp at h
  · exact hsub (charsOK_natStr _ c h)
  · simp only [List.mem_singleton] at h
    exact h ▸ (by decide)
  · exact hsub (charsOK_natStr _ c (List.mem_of_mem_drop h))

theorem charsOK_fmtF2 (q : ℚ) : charsOK (str "-.0123456789") (fmtF2 q) :=
  charsOK_fmtFk 2 q

/-- A pattern containing a character the text cannot contain is not a
substring of the text. -/
theorem not_infix_of_charsOK {t s A : Str} {c : Char} (hct : c ∈ t)
    (hs : charsOK A s) (hcA : c ∉ A) : ¬ t <:+: s :=
  fun hinf => hcA (hs c (hinf.subset hct))

/-- A decomposition witnesses a substring. -/
theorem infix_of_decomp {t s : Str} (pre post : Str)
    (h : s = pre ++ t ++ post) : t <:+: s :=
  h ▸ List.infix_append pre t post

/-! ### Trim-filter character sets -/

theorem videoTrimFilter_charsOK (i : Nat) (seg : VideoSegment) :
    charsOK (str "[]:vatrims,endpPTSAR=.-0123456789")
      (videoTrimFilter i seg) := by
  intro c hc
  rw [videoTrimFilter] at hc
  by_cases hE : 0 < seg.EndTime
  · rw [if_pos hE] at hc
    simp only [List.mem_append, or_assoc] at hc
    rcases hc with h | h | h | h | h | h | h | h | h <;>
      first
        | exact charsOK_mono (by decide) (charsOK_natStr _) c h
        | exact charsOK_mono (by decide) (charsOK_fmtF2 _) c h
        | exact charsOK_mono (by decide) (fun x hx => hx) c h
  · rw [if_neg hE] at hc
    simp only [List.mem_append, or_assoc] at hc
    rcases hc with h | h | h | h | h | h | h <;>
      first
        | exact charsOK_mono (by decide) (charsOK_natStr _) c h
        | exact charsOK_mono (by decide) (charsOK_fmtF2 _) c h
        | exact charsOK_mono (by decide) (fun x hx => hx) c h

theorem audioTrimFilter_charsOK (i : Nat) (seg : VideoSegment) :
    charsOK (str "[]:vatrims,endpPTSAR=.-0123456789")
      (audioTrimFilter i seg) := by
  intro c hc
  rw [audioTrimFilter] at hc
  by_cases hE : 0 < seg.EndTime
  · rw [if_pos hE] at hc
    simp only [List.mem_append, or_assoc] at hc
    rcases hc with h | h | h | h | h | h | h | h | h <;>
      first
        | exact charsOK_mono (by decide) (charsOK_natStr _) c h
        | exact charsOK_mono (by decide) (charsOK_fmtF2 _) c h
        | exact charsOK_mono (by decide) (fun x hx => hx) c h
  · rw [if_neg hE] at hc
    simp only [List.mem_append, or_assoc] at hc
    rcases hc with h | h | h | h | h | h | h <;>
      first
        | exact charsOK_mono (by decide) (charsOK_natStr _) c h
        | exact charsOK_mono (by decide) (charsOK_fmtF2 _) c h
        | exact charsOK_mono (by decide) (fun x hx => hx) c h

theorem videoTrimFilter_unbounded_charsOK (i : Nat) (seg : VideoSegment)
    (h : seg.EndTime ≤ 0) :
    charsOK (str "[]:vatrims,epPTSAR=.-0123456789")
      (videoTrimFilter i seg) := by
  intro c hc
  rw [videoTrimFilter, if_neg (not_lt.mpr h)] at hc
  simp only [List.mem_append, or_assoc] at hc
  rcases hc with h' | h' | h' | h' | h' | h' | h' <;>
    first
      | exact charsOK_mono (by decide) (charsOK_natStr _) c h'
      | exact charsOK_mono (by decide) (charsOK_fmtF2 _) c h'
      | exact charsOK_mono (by decide) (fun x hx => hx) c h'

theorem audioTrimFilter_unbounded_charsOK (i : Nat) (seg : VideoSegment)
    (h : seg.EndTime ≤ 0) :
    charsOK (str "[]:vatrims,epPTSAR=.-0123456789")
      (audioTrimFilter i seg) := by
  intro c hc
  rw [audioTrimFilter, if_neg (not_lt.mpr h)] at hc
  simp only [List.mem_append, or_assoc] at hc
  rcases hc with h' | h' | h' | h' | h' | h' | h' <;>
    first
      | exact charsOK_mono (by decide) (charsOK_natStr _) c h'
      | exact charsOK_mono (by decide) (charsOK_fmtF2 _) c h'
      | exact charsOK_mono (by decide) (fun x hx => hx) c h'

/-! ### Indexing the per-segment filter blocks -/

theorem pairBlocks_length {α β : Type} (f g : Nat → α → β) (n : Nat)
    (l : List α) :
    ((List.enumFrom n l).flatMap fun p => [f p.1 p.2, g p.1 p.2]).length =
      2 * l.length := by
  induction l generalizing n with
  | nil => simp
  | cons a t ih =>
    simp only [List.enumFrom, List.flatMap_cons, List.length_append,
      List.length_cons, List.length_nil, ih, List.length_cons]
    ring

theorem pairBlocks_get {α β : Type} (f g : Nat → α → β) (n : Nat)
    (l : List α) (i : Nat) (hi : i < l.length) :
    (((List.enumFrom n l).flatMap fun p => [f p.1 p.2, g p.1 p.2]).get?
        (2 * i) = some (f (n + i) (l.get ⟨i, hi⟩))) ∧
    (((List.enumFrom n l).flatMap fun p => [f p.1 p.2, g p.1 p.2]).get?
        (2 * i + 1) = some (g (n + i) (l.get ⟨i, hi⟩))) := by
  induction l generalizing n i with
  | nil => simp at hi
  | cons a t ih =>
    cases i with
    | zero => simp [List.enumFrom]
    | succ i =>
      have hi' : i < t.length := by simpa using Nat.lt_of_succ_lt_succ hi
      have hrec := ih (n + 1) i hi'
      have hcons : ((List.enumFrom n (a :: t)).flatMap fun p =>
          [f p.1 p.2, g p.1 p.2]) =
          f n a :: g n a ::
            ((List.enumFrom (n + 1) t).flatMap fun p => [f p.1 p.2, g p.1 p.2]) := by
        simp [List.enumFrom]
      have hg : (a :: t).get ⟨i + 1, hi⟩ = t.get ⟨i, hi'⟩ := rfl
      have hn : n + (i + 1) = n + 1 + i := by ring
      constructor
      · rw [hcons, show 2 * (i + 1) = 2 * i + 1 + 1 from by ring,
          List.get?_cons_succ, List.get?_cons_succ, hg, hn]
        exact hrec.1
      · rw [hcons, show 2 * (i + 1) + 1 = 2 * i + 1 + 1 + 1 from by ring,
          List.get?_cons_succ, List.get?_cons_succ, hg, hn]
        exact hrec.2

theorem inputArgs_length (l : List VideoSegment) :
    (l.flatMap fun seg => [str "-i", seg.FilePath]).length = 2 * l.length := by
  induction l with
  | nil => simp
  | cons a t ih =>
    rw [List.flatMap_cons, List.length_append, ih]
    simp only [List.length_cons, List.length_nil]
    ring

/-! ## C1: structure of the Merge argument list -/

/-- C1. For a Merge request with `N ≥ 2` segments the built argument
list hands the engine one filter graph in which, for each segment `i` in
request order, block `2i`/`2i+1` is the trim-plus-timestamp-reset of that
segment, for its video resp. audio stream; exactly one part is a concatenation
step, it has `n=N`, and it consumes the pairs `[v0][a0]…[v(N-1)][a(N-1)]`
in request order; a segment with `end_time ≤ 0` gets a trim with a start
bound and no end bound, and one with `end_time > 0` gets both bounds. -/
theorem mergeVideos_builds_trims_and_one_concat
    (segments : List VideoSegment) (out : Str)
    (hN : 2 ≤ segments.length) :
    ((mergeVideosArgs segments out).get? (2 * segments.length + 1) =
        some (str "-filter_complex")) ∧
    ((mergeVideosArgs segments out).get? (2 * segments.length + 2) =
        some (BuildFilterComplex (mergeFilterParts segments))) ∧
    (mergeFilterParts segments).length = 2 * segments.length + 1 ∧
    (∀ i (hi : i < segments.length),
      (mergeFilterParts segments).get? (2 * i) =
          some (videoTrimFilter i (segments.get ⟨i, hi⟩)) ∧
      (mergeFilterParts segments).get? (2 * i + 1) =
          some (audioTrimFilter i (segments.get ⟨i, hi⟩))) ∧
    (mergeFilterParts segments).get? (2 * segments.length) =
        some (mergeConcatFilter segments) ∧
    ((mergeFilterParts segments).filter
        fun p => decide (str "concat=" <:+: p)).length = 1 ∧
    (str "concat=n=" ++ natStr segments.length) <:+:
        mergeConcatFilter segments ∧
    mergeConcatInputs segments =
        (List.range segments.length).map concatPair ∧
    (∀ i (hi : i < segments.length),
      ((segments.get ⟨i, hi⟩).EndTime ≤ 0 →
        (str "trim=start=" <:+: videoTrimFilter i (segments.get ⟨i, hi⟩)) ∧
        ¬ (str "end=" <:+: videoTrimFilter i (segments.get ⟨i, hi⟩)) ∧
        (str "atrim=start=" <:+: audioTrimFilter i (segments.get ⟨i, hi⟩)) ∧
        ¬ (str "end=" <:+: audioTrimFilter i (segments.get ⟨i, hi⟩))) ∧
      (0 < (segments.get ⟨i, hi⟩).EndTime →
        (str ":end=" <:+: videoTrimFilter i (segments.get ⟨i, hi⟩)) ∧
        (str ":end=" <:+: audioTrimFilter i (segments.get ⟨i, hi⟩)))) := by
  have hblocklen :
      ((segments.enum.flatMap fun p =>
        [videoTrimFilter p.1 p.2, audioTrimFilter p.1 p.2]).length =
        2 * segments.length) :=
    pairBlocks_length _ _ 0 segments
  refine ⟨?_, ?_, ?_, ?_, ?_, ?_, ?_, ?_, ?_⟩
  · -- args index 2N+1 is "-filter_complex"
    rw [mergeVideosArgs]
    rw [show ([str "-y"] ++
        (segments.flatMap fun seg => [str "-i", seg.FilePath]) ++
        [str "-filter_complex",
          BuildFilterComplex (mergeFilterParts segments)] ++
        [str "-map", str "[outv]", str "-map", str "[outa]"] ++
        [str "-c:v", str "libx264", str "-preset", str "medium",
         str "-crf", str "23", str "-c:a", str "aac", str "-b:a",
         str "192k", out]) =
      ([str "-y"] ++ (segments.flatMap fun seg => [str "-i", seg.FilePath])) ++
        ([str "-filter_complex",
          BuildFilterComplex (mergeFilterParts segments)] ++
         ([str "-map", str "[outv]", str "-map", str "[outa]"] ++
          [str "-c:v", str "libx264", str "-preset", str "medium",
           str "-crf", str "23", str "-c:a", str "aac", str "-b:a",
           str "192k", out])) from by simp]
    have hlen : ([str "-y"] ++
        (segments.flatMap fun seg => [str "-i", seg.FilePath])).length =
        2 * segments.length + 1 := by
      rw [List.length_append, inputArgs_length, List.length_singleton]
      omega
    rw [List.get?_append_right (by rw [hlen]; try omega), hlen]
    rw [show 2 * segments.length + 1 - (2 * segments.length + 1) = 0 from by omega]
    simp
  · rw [mergeVideosArgs]
    rw [show ([str "-y"] ++
        (segments.flatMap fun seg => [str "-i", seg.FilePath]) ++
        [str "-filter_complex",
          BuildFilterComplex (mergeFilterParts segments)] ++
        [str "-map", str "[outv]", str "-map", str "[outa]"] ++
        [str "-c:v", str "libx264", str "-preset", str "medium",
         str "-crf", str "23", str "-c:a", str "aac", str "-b:a",
         str "192k", out]) =
      ([str "-y"] ++ (segments.flatMap fun seg => [str "-i", seg.FilePath])) ++
        ([str "-filter_complex",
          BuildFilterComplex (mergeFilterParts segments)] ++
         ([str "-map", str "[outv]", str "-map", str "[outa]"] ++
          [str "-c:v", str "libx264", str "-preset", str "medium",
           str "-crf", str "23", str "-c:a", str "aac", str "-b:a",
           str "192k", out])) from by simp]
    have hlen : ([str "-y"] ++
        (segments.flatMap fun seg => [str "-i", seg.FilePath])).length =
        2 * segments.length + 1 := by
      rw [List.length_append, inputArgs_length, List.length_singleton]
      omega
    rw [List.get?_append_right (by rw [hlen]; try omega), hlen]
    rw [show 2 * segments.length + 2 - (2 * segments.length + 1) = 1 from by omega]
    simp
  · rw [mergeFilterParts]
    simp [hblocklen]
  · intro i hi
    have hget := pairBlocks_get
      (fun i s => videoTrimFilter i s) (fun i s => audioTrimFilter i s)
      0 segments i hi
    have hlt : 2 * i < (segments.enum.flatMap fun p =>
        [videoTrimFilter p.1 p.2, audioTrimFilter p.1 p.2]).length := by
      rw [hblocklen]; omega
    have hlt' : 2 * i + 1 < (segments.enum.flatMap fun p =>
        [videoTrimFilter p.1 p.2, audioTrimFilter p.1 p.2]).length := by
      rw [hblocklen]; omega
    constructor
    · rw [mergeFilterParts, List.get?_append hlt]
      simpa using hget.1
    · rw [mergeFilterParts, List.get?_append hlt']
      simpa using hget.2
  · rw [mergeFilterParts, List.get?_append_right (by rw [hblocklen])]
    rw [hblocklen]
    simp
  · rw [mergeFilterParts, List.filter_append]
    have h1 : ((segments.enum.flatMap fun p =>
        [videoTrimFilter p.1 p.2, audioTrimFilter p.1 p.2]).filter
          fun p => decide (str "concat=" <:+: p)) = [] := by
      rw [List.filter_eq_nil_iff]
      intro a ha
      rcases List.mem_flatMap.mp ha with ⟨p, _, hp⟩
      simp only [List.mem_cons, List.not_mem_nil, or_false] at hp
      have hc : ¬ (str "concat=" <:+: a) := by
        rcases hp with h | h
        · exact h ▸ not_infix_of_charsOK (c := 'c') (by decide)
            (videoTrimFilter_charsOK p.1 p.2) (by decide)
        · exact h ▸ not_infix_of_charsOK (c := 'c') (by decide)
            (audioTrimFilter_charsOK p.1 p.2) (by decide)
      simpa using hc
    have h2 : str "concat=" <:+: mergeConcatFilter segments := by
      refine infix_of_decomp ((mergeConcatInputs segments).flatten)
        (str "n=" ++ natStr segments.length ++
          str ":v=1:a=1[outv][outa]") ?_
      rw [mergeConcatFilter]
      rw [show str "concat=n=" = str "concat=" ++ str "n=" from by decide]
      simp [List.append_assoc]
    rw [h1]
    simp [h2]
  · refine infix_of_decomp ((mergeConcatInputs segments).flatten)
      (str ":v=1:a=1[outv][outa]") ?_
    rw [mergeConcatFilter]
    simp [List.append_assoc]
  · rw [mergeConcatInputs]
    rw [show (fun p : Nat × VideoSegment => concatPair p.1) =
      concatPair ∘ Prod.fst from rfl]
    rw [← List.map_map, List.enum_map_fst]
  · intro i hi
    constructor
    · intro hend
      refine ⟨?_, ?_, ?_, ?_⟩
      · rw [videoTrimFilter, if_neg (not_lt.mpr hend)]
        refine infix_of_decomp
          (str "[" ++ natStr i ++ str ":v]")
          (fmtF2 (segments.get ⟨i, hi⟩).StartTime ++
            str ",setpts=PTS-STARTPTS[v" ++ natStr i ++ str "]") ?_
        rw [show str ":v]trim=start=" = str ":v]" ++ str "trim=start="
          from by decide]
        simp [List.append_assoc]
      · exact not_infix_of_charsOK (c := 'd') (by decide)
          (videoTrimFilter_unbounded_charsOK i _ hend) (by decide)
      · rw [audioTrimFilter, if_neg (not_lt.mpr hend)]
        refine infix_of_decomp
          (str "[" ++ natStr i ++ str ":a]")
          (fmtF2 (segments.get ⟨i, hi⟩).StartTime ++
            str ",asetpts=PTS-STARTPTS[a" ++ natStr i ++ str "]") ?_
        rw [show str ":a]atrim=start=" = str ":a]" ++ str "atrim=start="
          from by decide]
        simp [List.append_assoc]
      · exact not_infix_of_charsOK (c := 'd') (by decide)
          (audioTrimFilter_unbounded_charsOK i _ hend) (by decide)
    · intro hend
      constructor
      · rw [videoTrimFilter, if_pos hend]
        refine infix_of_decomp
          (str "[" ++ natStr i ++ str ":v]trim=start=" ++
            fmtF2 (segments.get ⟨i, hi⟩).StartTime)
          (fmtF2 (segments.get ⟨i, hi⟩).EndTime ++
            str ",setpts=PTS-STARTPTS[v" ++ natStr i ++ str "]") ?_
        simp [List.append_assoc]
      · rw [audioTrimFilter, if_pos hend]
        refine infix_of_decomp
          (str "[" ++ natStr i ++ str ":a]atrim=start=" ++
            fmtF2 (segments.get ⟨i, hi⟩).StartTime)
          (fmtF2 (segments.get ⟨i, hi⟩).EndTime ++
            str ",asetpts=PTS-STARTPTS[a" ++ natStr i ++ str "]") ?_
        simp [List.append_assoc]

/-- Witness for C1 at the two-segment request
`[{a.mp4, 0–10}, {b.mp4, 5–0 (open end)}]`. -/
theorem mergeVideos_builds_trims_and_one_concat_witness :
    (mergeFilterParts
      [⟨str "a.mp4", 0, 10⟩, ⟨str "b.mp4", 5, 0⟩]).length =
      2 * 2 + 1 :=
  (mergeVideos_builds_trims_and_one_concat
    [⟨str "a.mp4", 0, 10⟩, ⟨str "b.mp4", 5, 0⟩]
    (str "out.mp4") (by decide)).2.2.1

/-! ## C5: overlay fade windows -/

theorem intercalate_two (sep x y : Str) :
    List.intercalate sep [x, y] = x ++ sep ++ y := by
  simp [List.intercalate, List.intersperse]

/-- C5. For an Overlay request with fade animation and fade duration
`d`, the builder emits on the image input a fade-in with `st = start`,
`d = d` — covering `[start, start + d)` — and a fade-out with
`st = end - d`, `d = d` — covering exactly `[end - d, end)`. -/
theorem buildOverlayFilter_fade_windows (o : ImageOverlay) (d : ℚ)
    (h1 : o.Animation = .fade) (h2 : o.FadeDuration = some d) :
    buildOverlayFilter o =
      (str "[1:v]" ++
        ((str "fade=t=in:st=" ++ fmtF2 o.StartTime ++ str ":d=" ++ fmtF2 d) ++
          str "," ++
         (str "fade=t=out:st=" ++ fmtF2 (o.EndTime - d) ++ str ":d=" ++
          fmtF2 d)) ++ str "[overlay]") ++ str ";" ++
        (str "[0:v][overlay]" ++ buildOverlayExpression o) ∧
    fadeWindow o.StartTime d = Set.Ico o.StartTime (o.StartTime + d) ∧
    fadeWindow (o.EndTime - d) d = Set.Ico (o.EndTime - d) o.EndTime := by
  refine ⟨?_, rfl, ?_⟩
  · rw [buildOverlayFilter]
    rw [h1, h2]
    simp only [Option.getD_some, intercalate_two]
  · rw [fadeWindow, sub_add_cancel]

/-- Witness for C5, scenario (c) of the spec: window `[0, 5)`,
`fadeDuration = 1` gives fade-in over `[0, 1)` and fade-out over
`[4, 5)`. -/
theorem buildOverlayFilter_fade_windows_witness :
    fadeWindow (0 : ℚ) 1 = Set.Ico (0 : ℚ) 1 ∧
    fadeWindow (4 : ℚ) 1 = Set.Ico (4 : ℚ) 5 := by
  have h := buildOverlayFilter_fade_windows
    { FilePath := str "logo.png", Position := .topLeft, X := Option.none,
      Y := Option.none, StartTime := 0, EndTime := 5, Animation := .fade,
      FadeDuration := some 1, SlideDirection := Option.none,
      SlideDuration := Option.none, ZoomFrom := Option.none,
      ZoomTo := Option.none } 1 rfl rfl
  constructor
  · have h1 := h.2.1
    rwa [show ((0 : ℚ) + 1) = 1 from by norm_num] at h1
  · have h2 := h.2.2
    rwa [show ((5 : ℚ) - 1) = 4 from by norm_num] at h2

/-! ## C6: audio fade-out start -/

/-- The fade-in portion of the built audio chain, as a function of the
`FadeIn` field (proof-side normal form of lines 61–64 of the audio
builder). -/
def audioFadeInChunk : Option ℚ → Str
  | some fi =>
    if 0 < fi then (str "afade=t=in:st=0:d=" ++ fmtF2 fi) ++ str "," else []
  | Option.none => []

/-- The fade-out portion of the built audio chain, as a function of the
`FadeOut`, `EndTime` and `StartTime` fields (proof-side normal form of
lines 67–87 of the audio builder). -/
def audioFadeOutChunk (fo eo so : Option ℚ) : Str :=
  match fo with
  | some f =>
    if 0 < f then
      let fadeOutStart : ℚ :=
        match eo, so with
        | some e, some s => e - s - f
        | some e, Option.none => e - f
        | _, _ => 0
      if 0 < fadeOutStart then
        (str "afade=t=out:st=" ++ fmtF2 fadeOutStart ++ str ":d=" ++
          fmtF2 f) ++ str ","
      else (str "afade=t=out:d=" ++ fmtF2 f) ++ str ","
    else []
  | Option.none => []

/-- Normal form of `buildAudioFilter` for a fully trimmed track. -/
theorem buildAudioFilter_trimmed_shape (a : AudioConfig) (s e : ℚ)
    (hs : a.StartTime = some s) (he : a.EndTime = some e) :
    buildAudioFilter a =
      str "[1:a]" ++ (str "atrim=start=" ++ fmtF2 s ++ str ":end=" ++
        fmtF2 e) ++ str "," ++ str "asetpts=PTS-STARTPTS," ++
      audioFadeInChunk a.FadeIn ++
      audioFadeOutChunk a.FadeOut (some e) (some s) ++
      (str "volume=" ++ fmtF2 a.Volume) ++ str "[music]" ++ str ";" ++
      str "[0:a][music]amix=inputs=2:duration=first:dropout_transition=2[aout]" := by
  rcases hFI : a.FadeIn with _ | fi <;> rcases hFO : a.FadeOut with _ | f <;>
    (rw [buildAudioFilter, hs, he, hFI, hFO]
     simp only [audioFadeInChunk, audioFadeOutChunk, intercalate_two,
       reduceCtorEq, ne_eq, not_false_eq_true, true_or, or_true, if_true]) <;>
    first
      | (split_ifs <;> simp [List.append_assoc])
      | simp [List.append_assoc]

/-- C6. For an Audio request with trim window `[s, e]` and fade-out
duration `f > 0`, the builder emits a fade-out starting at `e - s - f`
when that value is positive; otherwise it emits a fade-out without a
start bound, which fades from the track start (`afade` default
`st = 0`). -/
theorem buildAudioFilter_fadeOut_start (a : AudioConfig) (s e f : ℚ)
    (hs : a.StartTime = some s) (he : a.EndTime = some e)
    (hf : a.FadeOut = some f) (hfpos : 0 < f) :
    (0 < e - s - f →
      ∃ pre post, buildAudioFilter a =
        pre ++ (str "afade=t=out:st=" ++ fmtF2 (e - s - f) ++ str ":d=" ++
          fmtF2 f) ++ str "," ++ post) ∧
    (e - s - f ≤ 0 →
      afadeDefaultStart = 0 ∧
      ∃ pre post, buildAudioFilter a =
        pre ++ (str "afade=t=out:d=" ++ fmtF2 f) ++ str "," ++ post) := by
  have hshape := buildAudioFilter_trimmed_shape a s e hs he
  constructor
  · intro hpos
    refine ⟨str "[1:a]" ++ (str "atrim=start=" ++ fmtF2 s ++ str ":end=" ++
        fmtF2 e) ++ str "," ++ str "asetpts=PTS-STARTPTS," ++
        audioFadeInChunk a.FadeIn,
      (str "volume=" ++ fmtF2 a.Volume) ++ str "[music]" ++ str ";" ++
        str "[0:a][music]amix=inputs=2:duration=first:dropout_transition=2[aout]",
      ?_⟩
    rw [hshape, hf]
    rw [show audioFadeOutChunk (some f) (some e) (some s) =
      (str "afade=t=out:st=" ++ fmtF2 (e - s - f) ++ str ":d=" ++ fmtF2 f) ++
        str "," from by
      rw [audioFadeOutChunk]
      simp only [if_pos hfpos, if_pos hpos]]
    simp [List.append_assoc]
  · intro hle
    refine ⟨rfl, str "[1:a]" ++ (str "atrim=start=" ++ fmtF2 s ++
        str ":end=" ++ fmtF2 e) ++ str "," ++ str "asetpts=PTS-STARTPTS," ++
        audioFadeInChunk a.FadeIn,
      (str "volume=" ++ fmtF2 a.Volume) ++ str "[music]" ++ str ";" ++
        str "[0:a][music]amix=inputs=2:duration=first:dropout_transition=2[aout]",
      ?_⟩
    rw [hshape, hf]
    rw [show audioFadeOutChunk (some f) (some e) (some s) =
      (str "afade=t=out:d=" ++ fmtF2 f) ++ str "," from by
      rw [audioFadeOutChunk]
      simp only [if_pos hfpos, if_neg (not_lt.mpr hle)]]
    simp [List.append_assoc]

/-- Witness for C6, scenario (d) of the spec: window `[0, 30]`,
`fadeOut = 2`: the emitted fade-out begins at `t = 30 - 0 - 2 = 28`. -/
theorem buildAudioFilter_fadeOut_start_witness :
    ((30 : ℚ) - 0 - 2 = 28) ∧
    ∃ pre post,
      buildAudioFilter
        { FilePath := str "music.mp3", Volume := 3 / 10,
          StartTime := some 0, EndTime := some 30, FadeIn := Option.none,
          FadeOut := some 2 } =
        pre ++ (str "afade=t=out:st=" ++ fmtF2 ((30 : ℚ) - 0 - 2) ++
          str ":d=" ++ fmtF2 2) ++ str "," ++ post :=
  ⟨by norm_num,
   (buildAudioFilter_fadeOut_start
      { FilePath := str "music.mp3", Volume := 3 / 10,
        StartTime := some 0, EndTime := some 30, FadeIn := Option.none,
        FadeOut := some 2 } 0 30 2 rfl rfl rfl (by norm_num)).1
     (by norm_num)⟩

/-! ## C10: bearer-token validation -/

/-- C10 (counterexample). When the configured API key itself begins
with `Bearer ` (and is longer than 7 bytes), presenting the bare key as
the Authorization header does not authenticate: `ValidateToken` strips
the prefix and compares the remainder with the full key.  This refutes
the claim that the bare configured key is always accepted. -/
theorem validateToken_bare_key_rejected :
    ValidateToken (str "Bearer abc") (str "Bearer abc") ≠ Option.none := by
  decide

/-- C10 (amended). `ValidateToken` succeeds exactly when the header
is `Bearer ` followed by the (non-empty) configured key, or is the bare
configured key where the key is non-empty and does not itself consist of
`Bearer ` followed by a non-empty remainder; every other header,
including the empty header, is rejected. -/
theorem validateToken_amended (apiKey authHeader : Str) :
    ValidateToken apiKey authHeader = Option.none ↔
      ((authHeader = str "Bearer " ++ apiKey ∧ apiKey ≠ []) ∨
       (authHeader = apiKey ∧ apiKey ≠ [] ∧
         ¬ ∃ rest, rest ≠ [] ∧ apiKey = str "Bearer " ++ rest)) := by
  have hblen : (str "Bearer ").length = 7 := by decide
  by_cases hne : authHeader = []
  · subst hne
    rw [ValidateToken, if_pos rfl]
    constructor
    · intro h; cases h
    · rintro (⟨h, _⟩ | ⟨h, hk, _⟩)
      · exact absurd h.symm (by simp [str])
      · exact absurd h.symm hk
  · rw [ValidateToken, if_neg hne]
    by_cases hb : 7 < authHeader.length ∧ authHeader.take 7 = str "Bearer "
    · rw [if_pos hb]
      constructor
      · intro h
        have htok : authHeader.drop 7 = apiKey := by
          by_contra hcontra
          rw [if_pos hcontra] at h
          cases h
        left
        refine ⟨?_, ?_⟩
        · conv_lhs => rw [← List.take_append_drop 7 authHeader]
          rw [hb.2, htok]
        · intro hk
          have : authHeader.length - 7 = 0 := by
            rw [← List.length_drop, htok, hk]; rfl
          omega
      · rintro (⟨h, _⟩ | ⟨h, hk, hnb⟩)
        · have htok : authHeader.drop 7 = apiKey := by
            rw [h, ← hblen, List.drop_left]
          rw [if_neg (by simp [htok])]
        · exfalso
          apply hnb
          refine ⟨authHeader.drop 7, ?_, ?_⟩
          · intro hdrop
            have : authHeader.length - 7 = 0 := by
              rw [← List.length_drop, hdrop]; rfl
            omega
          · rw [← h]
            conv_lhs => rw [← List.take_append_drop 7 authHeader]
            rw [hb.2]
    · rw [if_neg hb]
      constructor
      · intro h
        have htok : authHeader = apiKey := by
          by_contra hcontra
          rw [if_pos hcontra] at h
          cases h
        right
        refine ⟨htok, htok ▸ hne, ?_⟩
        rintro ⟨rest, hrest, hkey⟩
        apply hb
        constructor
        · rw [htok, hkey, List.length_append, hblen]
          have : 0 < rest.length := List.length_pos.mpr hrest
          omega
        · rw [htok, hkey, ← hblen, List.take_left]
      · rintro (⟨h, hk⟩ | ⟨h, hk, _⟩)
        · exfalso
          apply hb
          constructor
          · rw [h, List.length_append, hblen]
            have : 0 < apiKey.length := List.length_pos.mpr hk
            omega
          · rw [h, ← hblen, List.take_left]
        · rw [if_neg (by simp [h])]

/-! ## C7: progress is non-decreasing over every job lifetime -/

/-- C7. On every submission route (HTTP `processJobCommon`, MCP
`processJobCommon`, combine-from-URLs, combine-from-files), for every
outcome of the stages (success, stage failure, S3 failure, local-delete
success or failure), the sequence of `Progress` values observable through
`GetStatus` over the whole job lifetime is non-decreasing. -/
theorem job_progress_nondecreasing (id outputPath : Str)
    (result downloadResult mergeResult : Option Str)
    (s3Result : Except Str Str) (removeOk : Bool) :
    List.Chain' (· ≤ ·)
      ((observedStates (apiProcessEvents outputPath result)
        (NewJob id)).map JobState.progress) ∧
    List.Chain' (· ≤ ·)
      ((observedStates (mcpProcessEvents outputPath result)
        (NewJob id)).map JobState.progress) ∧
    List.Chain' (· ≤ ·)
      ((observedStates (combineFromURLsEvents outputPath downloadResult
        mergeResult s3Result removeOk) (NewJob id)).map JobState.progress) ∧
    List.Chain' (· ≤ ·)
      ((observedStates (combineFromFilesEvents outputPath mergeResult
        s3Result removeOk) (NewJob id)).map JobState.progress) := by
  refine ⟨?_, ?_, ?_, ?_⟩
  · rcases result with _ | e <;>
      simp [observedStates, apiProcessEvents, stepEv, applyMut, NewJob]
  · rcases result with _ | e <;>
      simp [observedStates, mcpProcessEvents, stepEv, applyMut, NewJob]
  · rcases downloadResult with _ | de <;>
      rcases mergeResult with _ | me <;>
      rcases s3Result with se | su <;>
      rcases removeOk with _ | _ <;>
      simp [observedStates, combineFromURLsEvents, combineCommonEvents,
        stepEv, applyMut, NewJob]
  · rcases mergeResult with _ | me <;>
      rcases s3Result with se | su <;>
      rcases removeOk with _ | _ <;>
      simp [observedStates, combineFromFilesEvents, combineCommonEvents,
        stepEv, applyMut, NewJob]

/-! ## C2: OutputPath/Error population invariant (corrected) -/

/-- C2 (counterexample). A fully successful combine run (merge ok,
S3 upload ok, local file deleted) passes through an observable state that
is Completed with an **empty** OutputPath — the handler clears the path
after deleting the local file — refuting "OutputPath is non-empty iff
Status = Completed" as a lifetime invariant. -/
theorem combine_completed_with_empty_outputPath :
    ∃ st ∈ observedStates
      (combineFromFilesEvents (str "outputs/j1.mp4") Option.none
        (.ok (str "https://s3/j1.mp4")) true) (NewJob (str "j1")),
      st.status = .completed ∧ st.outputPath = [] ∧
      ∃ st' ∈ observedStates
        (combineFromFilesEvents (str "outputs/j1.mp4") Option.none
          (.ok (str "https://s3/j1.mp4")) true) (NewJob (str "j1")),
        st'.status = .processing ∧ st'.outputPath ≠ [] := by
  decide

/-- C2 (amended). On the single-stage routes driven by the HTTP
`processJobCommon`, every snapshot persisted through `jobStore.Update`
satisfies "OutputPath non-empty iff Completed" and "Error non-empty iff
Failed" (given a non-empty output path and non-empty failure message).
The Error-iff-Failed half moreover holds at every `GetStatus`-observable
point of that route and of both combine routes.  (The OutputPath half
fails on the combine route and between `SetOutput` and
`UpdateStatus(Completed)`, per the counterexample.) -/
theorem job_output_error_invariant_amended (id outputPath : Str)
    (result : Option Str) (houtput : outputPath ≠ [])
    (herr : ∀ e, result = some e → e ≠ []) :
    (∀ st ∈ persistedStates (apiProcessEvents outputPath result)
        (NewJob id),
      (st.outputPath ≠ [] ↔ st.status = .completed) ∧
      (st.error ≠ [] ↔ st.status = .failed)) ∧
    (∀ st ∈ observedStates (apiProcessEvents outputPath result)
        (NewJob id),
      (st.error ≠ [] ↔ st.status = .failed)) ∧
    (∀ (dl mg : Option Str) (s3 : Except Str Str) (rm : Bool),
      ∀ st ∈ observedStates (combineFromURLsEvents outputPath dl mg s3 rm)
          (NewJob id),
        (st.error ≠ [] ↔ st.status = .failed)) ∧
    (∀ (mg : Option Str) (s3 : Except Str Str) (rm : Bool),
      ∀ st ∈ observedStates (combineFromFilesEvents outputPath mg s3 rm)
          (NewJob id),
        (st.error ≠ [] ↔ st.status = .failed)) := by
  have happ : ∀ (l e : Str), l.length ≠ 0 → l ++ e ≠ [] := by
    intro l e hl hc
    have hlen := congrArg List.length hc
    rw [List.length_append] at hlen
    simp only [List.length_nil, Nat.add_eq_zero] at hlen
    exact hl hlen.1
  refine ⟨?_, ?_, ?_, ?_⟩
  · rcases result with _ | e
    · intro st hst
      simp only [apiProcessEvents, persistedStates, applyMut,
        List.cons_append, List.nil_append, List.mem_cons,
        List.not_mem_nil, or_false] at hst
      rcases hst with h | h | h <;> subst h <;> simp [NewJob, houtput]
    · have he : e ≠ [] := herr e rfl
      intro st hst
      simp only [apiProcessEvents, persistedStates, applyMut,
        List.cons_append, List.nil_append, List.mem_cons,
        List.not_mem_nil, or_false] at hst
      rcases hst with h | h | h <;> subst h <;> simp [NewJob, houtput, he]
  · rcases result with _ | e
    · intro st hst
      simp only [apiProcessEvents, observedStates, List.scanl, stepEv,
        applyMut, List.cons_append, List.nil_append, List.mem_cons,
        List.not_mem_nil, or_false] at hst
      rcases hst with h | h | h | h | h | h | h | h | h | h <;> subst h <;>
        simp [NewJob]
    · have he : e ≠ [] := herr e rfl
      intro st hst
      simp only [apiProcessEvents, observedStates, List.scanl, stepEv,
        applyMut, List.cons_append, List.nil_append, List.mem_cons,
        List.not_mem_nil, or_false] at hst
      rcases hst with h | h | h | h | h | h | h | h <;> subst h <;>
        simp [NewJob, he]
  · intro dl mg s3 rm
    rcases dl with _ | de <;> rcases mg with _ | me <;>
      rcases s3 with se | su <;> rcases rm with _ | _ <;>
      (intro st hst
       simp only [combineFromURLsEvents, combineCommonEvents,
         observedStates, List.scanl, stepEv, applyMut, List.cons_append,
         List.nil_append, if_true, if_false] at hst
       fin_cases hst) <;>
      first
        | exact iff_of_true (happ _ _ (by decide)) rfl
        | simp [NewJob]
  · intro mg s3 rm
    rcases mg with _ | me <;>
      rcases s3 with se | su <;> rcases rm with _ | _ <;>
      (intro st hst
       simp only [combineFromFilesEvents, combineCommonEvents,
         observedStates, List.scanl, stepEv, applyMut, List.cons_append,
         List.nil_append, if_true, if_false] at hst
       fin_cases hst) <;>
      first
        | exact iff_of_true (happ _ _ (by decide)) rfl
        | simp [NewJob]

/-- The last snapshot persisted for a failed single-stage merge job. -/
def failedMergeSnapshot : JobState :=
  { id := str "j1", status := .failed, progress := 30, outputPath := [],
    s3url := [], webhookURL := [], error := str "boom" }

/-- Witness for C2 (amended): the final persisted snapshot of a failed
merge job satisfies both halves of the invariant. -/
theorem job_output_error_invariant_amended_witness :
    (failedMergeSnapshot.outputPath ≠ [] ↔
      failedMergeSnapshot.status = .completed) ∧
    (failedMergeSnapshot.error ≠ [] ↔
      failedMergeSnapshot.status = .failed) :=
  (job_output_error_invariant_amended (str "j1") (str "outputs/j1.mp4")
    (some (str "boom")) (by decide)
    (fun e he => by cases he; decide)).1
    failedMergeSnapshot (by decide)

/-! ## C4: synchronous validation vs. background file validation -/

/-- C4 (counterexample). A Merge request with two segments whose file
references are unspecified (empty paths) is *not* rejected synchronously:
the handler accepts it and a Job — which then fails in the background on
file validation — is added to the store, refuting "no Job is ever added"
for file-reference validation failures. -/
theorem merge_submit_empty_files_adds_failed_job :
    (handlerMergeVideos [⟨[], 0, 0⟩, ⟨[], 0, 0⟩] [] [] true (str "j1")
      (str "outputs/j1.mp4")).1 = true ∧
    (handlerMergeVideos [⟨[], 0, 0⟩, ⟨[], 0, 0⟩] [] [] true (str "j1")
      (str "outputs/j1.mp4")).2 =
      [{ id := str "j1", status := .failed, progress := 30,
         outputPath := [], s3url := [], webhookURL := [],
         error := str "segment 0: file path is empty" }] := by
  decide

/-- The final state of a job whose background stage failed with message
`e` after the 30% checkpoint (the shape `processJobCommon` leaves). -/
def failedJobState (id e : Str) : JobState :=
  { id := id, status := .failed, progress := 30, outputPath := [],
    s3url := [], webhookURL := [], error := e }

/-- C4 (amended). Requests failing the synchronous structural
validation (Merge with fewer than 2 segments on both the HTTP and the MCP
route, Complete with 0 segments) are rejected at submission time and no
Job is added to the store.  A Merge request with enough segments but an
unspecified, empty or missing file reference is accepted: a Job *is*
added, and it reaches the Failed state in the background task. -/
theorem submit_validation_amended :
    (∀ (segments : List VideoSegment) (store : List JobState)
        (fs : List Str) (execOk : Bool) (id out : Str),
      segments.length < 2 →
      handlerMergeVideos segments store fs execOk id out = (false, store) ∧
      mcpHandleMergeVideos segments store fs execOk id out = (false, store)) ∧
    (∀ (req : CompleteProcessRequest) (store : List JobState)
        (res : Option Str) (id out : Str),
      req.Segments.length < 1 →
      handlerProcessComplete req store res id out = (false, store)) ∧
    (∀ (segments : List VideoSegment) (store : List JobState)
        (fs : List Str) (execOk : Bool) (id out : Str),
      2 ≤ segments.length →
      (∃ seg ∈ segments, ValidateFile fs seg.FilePath ≠ Option.none) →
      ∃ j, handlerMergeVideos segments store fs execOk id out =
          (true, store ++ [j]) ∧ j.status = .failed) := by
  refine ⟨?_, ?_, ?_⟩
  · intro segments store fs execOk id out h
    constructor
    · rw [handlerMergeVideos, if_pos h]
    · rw [mcpHandleMergeVideos, if_pos h]
  · intro req store res id out h
    rw [handlerProcessComplete, if_pos h]
  · intro segments store fs execOk id out hlen hbad
    obtain ⟨seg, hmem, hval⟩ := hbad
    have hsome : mergeValidateSegments fs segments ≠ Option.none := by
      intro hnone
      rw [mergeValidateSegments, List.findSome?_eq_none_iff] at hnone
      obtain ⟨⟨i, hi⟩, hget⟩ := List.mem_iff_get.mp hmem
      rw [List.get_eq_getElem] at hget
      have henum : (i, seg) ∈ segments.enum := by
        have h1 : segments.enum[i]? = some (i, seg) := by
          rw [List.getElem?_enum, List.getElem?_eq_getElem hi, hget]
          rfl
        have hlt : i < segments.enum.length := by
          rw [List.enum_length]; exact hi
        have h2 : segments.enum[i] = (i, seg) := by
          rw [List.getElem?_eq_getElem hlt] at h1
          exact Option.some_injective _ h1
        rw [← h2]
        exact List.getElem_mem hlt
      have hz := hnone _ henum
      simp only [Option.map_eq_none'] at hz
      exact hval hz
    obtain ⟨eMsg, heq⟩ := Option.ne_none_iff_exists'.mp hsome
    have hrun : mergeRunResult fs segments out execOk = some eMsg := by
      rw [mergeRunResult, MergeVideos, if_neg (Nat.not_lt.mpr hlen), heq]
    refine ⟨failedJobState id eMsg, ?_, rfl⟩
    rw [handlerMergeVideos, if_neg (Nat.not_lt.mpr hlen), hrun]
    rfl

/-- Witness for C4 (amended) at a one-segment Merge request, an empty
Complete request, and a two-segment request naming a missing file. -/
theorem submit_validation_amended_witness :
    (handlerMergeVideos [⟨str "a.mp4", 0, 0⟩] [] [] true (str "j")
        (str "o.mp4") = (false, []) ∧
      mcpHandleMergeVideos [⟨str "a.mp4", 0, 0⟩] [] [] true (str "j")
        (str "o.mp4") = (false, [])) ∧
    handlerProcessComplete ⟨[], [], Option.none⟩ [] Option.none (str "j")
      (str "o.mp4") = (false, []) ∧
    ∃ j, handlerMergeVideos [⟨str "a.mp4", 0, 0⟩, ⟨str "missing.mp4", 0, 0⟩]
        [] [str "a.mp4"] true (str "j") (str "o.mp4") = (true, [] ++ [j]) ∧
      j.status = .failed :=
  ⟨submit_validation_amended.1 [⟨str "a.mp4", 0, 0⟩] [] [] true (str "j")
      (str "o.mp4") (by decide),
   submit_validation_amended.2.1 ⟨[], [], Option.none⟩ [] Option.none
      (str "j") (str "o.mp4") (by decide),
   submit_validation_amended.2.2 [⟨str "a.mp4", 0, 0⟩, ⟨str "missing.mp4", 0, 0⟩]
      [] [str "a.mp4"] true (str "j") (str "o.mp4") (by decide)
      ⟨⟨str "missing.mp4", 0, 0⟩, by decide, by decide⟩⟩

/-! ## C8: the execution gate bounds concurrency and never leaks a slot -/

/-- One gate step preserves the slot-accounting invariant. -/
theorem gateStep_preserves {K : Nat} {b c : GateState} (hstep : GateStep b c)
    (ih : runningCount b + b.avail = K) :
    runningCount c + c.avail = K := by
  cases hstep with
  | acquire i hi hpos =>
    obtain ⟨hlt, hget⟩ := List.get?_eq_some.mp hi
    rw [List.get_eq_getElem] at hget
    have hcount := List.count_set TaskPhase.running TaskPhase.running
      b.tasks i hlt
    rw [hget,
      if_neg (by decide : ¬ ((TaskPhase.waiting == TaskPhase.running) = true)),
      if_pos (by decide : (TaskPhase.running == TaskPhase.running) = true),
      Nat.sub_zero] at hcount
    simp only [runningCount] at ih ⊢
    rw [hcount]
    omega
  | cancelAcquire i hi =>
    obtain ⟨hlt, hget⟩ := List.get?_eq_some.mp hi
    rw [List.get_eq_getElem] at hget
    have hcount := List.count_set TaskPhase.done TaskPhase.running
      b.tasks i hlt
    rw [hget,
      if_neg (by decide : ¬ ((TaskPhase.waiting == TaskPhase.running) = true)),
      if_neg (by decide : ¬ ((TaskPhase.done == TaskPhase.running) = true)),
      Nat.sub_zero, Nat.add_zero] at hcount
    simp only [runningCount] at ih ⊢
    rw [hcount]
    omega
  | finish i hi =>
    obtain ⟨hlt, hget⟩ := List.get?_eq_some.mp hi
    rw [List.get_eq_getElem] at hget
    have hmem : TaskPhase.running ∈ b.tasks := by
      rw [← hget]
      exact List.getElem_mem hlt
    have hcpos : 0 < b.tasks.count TaskPhase.running :=
      List.count_pos_iff.mpr hmem
    have hcount := List.count_set TaskPhase.done TaskPhase.running
      b.tasks i hlt
    rw [hget,
      if_pos (by decide : (TaskPhase.running == TaskPhase.running) = true),
      if_neg (by decide : ¬ ((TaskPhase.done == TaskPhase.running) = true)),
      Nat.add_zero] at hcount
    simp only [runningCount] at ih hcpos ⊢
    rw [hcount]
    omega

/-- C8. From any state the executor gate can reach, the number of
running external-engine processes plus the free slots equals the
configured capacity — so at most `maxConcurrent` processes ever run
concurrently, and every slot acquired by `Execute` has been released on
return (no task that has returned still holds a slot). -/
theorem gate_concurrency_bounded (K n : Nat) (s : GateState)
    (h : GateReachable K n s) :
    runningCount s + s.avail = K ∧ runningCount s ≤ K := by
  have key : runningCount s + s.avail = K := by
    induction h with
    | refl => simp [runningCount, gateInit, List.count_replicate]
    | tail hsteps hstep ih => exact gateStep_preserves hstep ih
  exact ⟨key, by omega⟩

/-- Witness for C8: with capacity 1 and two tasks, the state after one
successful acquisition is reachable and satisfies the bound. -/
theorem gate_concurrency_bounded_witness :
    runningCount ⟨0, [TaskPhase.running, TaskPhase.waiting]⟩ +
      (GateState.mk 0 [TaskPhase.running, TaskPhase.waiting]).avail = 1 ∧
    runningCount ⟨0, [TaskPhase.running, TaskPhase.waiting]⟩ ≤ 1 :=
  gate_concurrency_bounded 1 2 ⟨0, [TaskPhase.running, TaskPhase.waiting]⟩
    (Relation.ReflTransGen.single
      (GateStep.acquire (gateInit 1 2) 0 rfl (by decide)))

/-! ## C9: persistence round-trip -/

/-- C9. Saving a Completed job with `SaveJob` and reloading it with
`LoadJob` under the same job ID yields a job with identical status,
progress and output path. -/
theorem saveJob_loadJob_roundtrip (jobsDir : Str)
    (disk : List (Str × JobData)) (j : JobState)
    (h : j.status = .completed) :
    ∃ j', LoadJob jobsDir (SaveJob jobsDir disk j) j.id = some j' ∧
      j'.status = j.status ∧ j'.progress = j.progress ∧
      j'.outputPath = j.outputPath := by
  refine ⟨{ NewJob j.id with
      status := j.status, progress := j.progress,
      outputPath := j.outputPath, error := j.error }, ?_, rfl, rfl, rfl⟩
  rw [LoadJob, SaveJob, diskRead]
  simp [List.find?]

/-- Witness for C9 at a concrete Completed job. -/
theorem saveJob_loadJob_roundtrip_witness :
    ∃ j', LoadJob (str "data/jobs")
        (SaveJob (str "data/jobs") []
          { id := str "j1", status := .completed, progress := 100,
            outputPath := str "outputs/j1.mp4", s3url := [],
            webhookURL := [], error := [] })
        (str "j1") = some j' ∧
      j'.status = .completed ∧ j'.progress = 100 ∧
      j'.outputPath = str "outputs/j1.mp4" :=
  saveJob_loadJob_roundtrip (str "data/jobs") []
    { id := str "j1", status := .completed, progress := 100,
      outputPath := str "outputs/j1.mp4", s3url := [], webhookURL := [],
      error := [] } rfl

/-! ## C3: the retention sweeper scans the wrong directory -/

/-- C3 (code bug). `cleanOldJobs` lists
`filepath.Dir(jobStore.GetJobsDir())` — the **parent** of the jobs
directory — although its own code comment says it reads the jobs directory.
With the jobs directory `data/jobs` holding an expired record `old.json`
(modification time 0, cutoff 100), the sweep lists `data` instead, finds
no `.json` file there, and deletes nothing: the expired job stays in the
store and its record stays on disk, contradicting the claimed behaviour.
(The `jobsDir == ""` guard is dead for the same reason: `filepath.Dir`
never returns an empty string.) -/
theorem cleanOldJobs_scans_parent_directory :
    filepathDir (str "data/jobs") = str "data" ∧
    filepathDir [] = str "." ∧
    cleanOldJobs (str "data/jobs")
      (fun d =>
        if d = str "data/jobs" then [⟨str "old.json", false, 0⟩]
        else if d = str "data" then [⟨str "jobs", true, 5⟩]
        else [])
      [NewJob (str "old")] 100 =
      ([NewJob (str "old")], [], 0) := by
  refine ⟨by decide, by decide, by decide⟩

end GoVid
